import Mathlib

/-!
Verification of the Clog-Bot core against its specification.

This file is a shallow embedding of the two core modules of the repository,
`src/services/api_service.py` (token-bucket rate limiter, retrying fetch
client) and `src/services/leaderboard_service.py` (leaderboard
synchronization, ranking, rendering and publishing), together with theorems
settling the specification claims about them.

Conventions of the embedding:
- Python floats used for wall-clock times are modelled as rationals.
- Python `int(x)` (truncation toward zero) is modelled by `pyInt`.
- Python values that may dynamically be `None` are modelled as `Option`.
- The I/O boundary (HTTP responses, the message destination) is modelled as
  explicit input data; database tables are association lists keyed by
  username (one guild scope at a time, as in the code's per-guild loop).
- Python's `list.sort`, a stable sort by key, is modelled by the canonical
  stable sort `List.insertionSort` with the key order of the source.
-/

namespace ClogBot

/-! ## api_service.py: rate limiting (lines 10-18, 51-80) -/

/-- Rate limiting setting, line 11 of api_service.py. -/
def MAX_REQUESTS_PER_MINUTE : ℚ := 14

/-- Rate limiting setting, line 12 of api_service.py. -/
def MAX_BURST : Int := 90

/-- Python `int(q)` on a rational: truncation toward zero. -/
def pyInt (q : ℚ) : Int := q.num.tdiv q.den

/-- The mutable fields of `_rate_limit_data` relevant to token accounting
(lines 13-18 of api_service.py): the token count and the last-refill time. -/
structure RateLimitState where
  tokens : Int
  last_refill : ℚ
deriving DecidableEq

/-- Initial `_rate_limit_data`: starts with `MAX_BURST` tokens at start time
`t0` (lines 13-15 of api_service.py). -/
def initialRateLimitState (t0 : ℚ) : RateLimitState :=
  { tokens := MAX_BURST, last_refill := t0 }

/-- Embedding of `refill_tokens` (lines 51-66 of api_service.py): add
`int(elapsed * (MAX_REQUESTS_PER_MINUTE / 60.0))` tokens, capped at
`MAX_BURST`; the last-refill time advances only when at least one token was
added. -/
def refill_tokens (now : ℚ) (s : RateLimitState) : RateLimitState :=
  let elapsed := now - s.last_refill
  let new_tokens := pyInt (elapsed * (MAX_REQUESTS_PER_MINUTE / 60))
  if new_tokens > 0 then
    { tokens := min MAX_BURST (s.tokens + new_tokens), last_refill := now }
  else s

/-- Outcome of one iteration of the `while True` loop in
`ensure_token_available`: either a token was consumed and the caller
returns, or the caller suspends for the given duration (seconds) and then
rechecks. -/
inductive AcquireStep where
  | acquired (s : RateLimitState)
  | wait (duration : ℚ) (s : RateLimitState)
deriving DecidableEq

/-- Embedding of one iteration of `ensure_token_available` (lines 69-80 of
api_service.py): refill, then either consume a token and return, or sleep
`60.0 / MAX_REQUESTS_PER_MINUTE` seconds before rechecking. -/
def ensure_token_step (now : ℚ) (s : RateLimitState) : AcquireStep :=
  let s1 := refill_tokens now s
  if s1.tokens > 0 then AcquireStep.acquired { s1 with tokens := s1.tokens - 1 }
  else AcquireStep.wait (60 / MAX_REQUESTS_PER_MINUTE) s1

/-- N successive `acquire()` calls issued rapidly (all at the same wall-clock
instant `now`); `none` if any of them would have to suspend. -/
def rapidAcquires (now : ℚ) (s : RateLimitState) : Nat → Option RateLimitState
  | 0 => some s
  | n + 1 =>
    match rapidAcquires now s n with
    | some s1 =>
      match ensure_token_step now s1 with
      | AcquireStep.acquired s2 => some s2
      | AcquireStep.wait _ _ => none
    | none => none

theorem pyInt_eq_floor (q : ℚ) (h : 0 ≤ q) : pyInt q = ⌊q⌋ := by
  rw [pyInt, Rat.floor_def,
    Int.tdiv_eq_ediv (Rat.num_nonneg.mpr h) (Int.natCast_nonneg _)]

theorem pyInt_zero : pyInt 0 = 0 := by
  simp [pyInt]

/-- Refilling at the very instant of the last refill adds no tokens and
changes nothing. -/
theorem refill_tokens_same_time (s : RateLimitState) :
    refill_tokens s.last_refill s = s := by
  simp [refill_tokens, pyInt_zero]

theorem rapidAcquires_tokens (t0 : ℚ) :
    ∀ N : Nat, N ≤ 90 →
      rapidAcquires t0 (initialRateLimitState t0) N = some ⟨90 - (N : Int), t0⟩ := by
  intro N
  induction N with
  | zero => intro _; simp [rapidAcquires, initialRateLimitState, MAX_BURST]
  | succ n ih =>
    intro h
    have hn : n ≤ 90 := Nat.le_of_succ_le h
    have hpos : (0 : Int) < 90 - (n : Int) := by
      have : (n : Int) < 90 := by exact_mod_cast Nat.lt_of_succ_le h
      omega
    rw [rapidAcquires, ih hn]
    have hrefill : refill_tokens t0 ⟨90 - (n : Int), t0⟩ = ⟨90 - (n : Int), t0⟩ :=
      refill_tokens_same_time ⟨90 - (n : Int), t0⟩
    simp only [ensure_token_step, hrefill, hpos, if_pos]
    have : (90 : Int) - (n : Int) - 1 = 90 - ((n : Nat) + 1 : Nat) := by
      push_cast; ring
    simp [this]

/-- Claim C6: the token bucket starts at `MAX_BURST` tokens; each refill adds
`floor(elapsed * MAX_REQUESTS_PER_MINUTE / 60)` tokens, capped so the count
never exceeds `MAX_BURST`; for every `N ≤ MAX_BURST`, `N` rapid `acquire()`
calls each consume one token and return without suspending, leaving
`MAX_BURST - N` tokens; and a further rapid call on an empty bucket suspends
for `60 / MAX_REQUESTS_PER_MINUTE` seconds before rechecking. -/
theorem token_bucket_spec (t0 : ℚ) (N : Nat) (hN : N ≤ 90) :
    (initialRateLimitState t0).tokens = MAX_BURST ∧
    rapidAcquires t0 (initialRateLimitState t0) N = some ⟨MAX_BURST - (N : Int), t0⟩ ∧
    ensure_token_step t0 ⟨0, t0⟩ =
      AcquireStep.wait (60 / MAX_REQUESTS_PER_MINUTE) ⟨0, t0⟩ ∧
    (∀ (s : RateLimitState) (now : ℚ), s.last_refill ≤ now →
      0 ≤ s.tokens → s.tokens ≤ MAX_BURST →
      (refill_tokens now s).tokens =
        min MAX_BURST (s.tokens + ⌊(now - s.last_refill) * (MAX_REQUESTS_PER_MINUTE / 60)⌋)) := by
  refine ⟨rfl, ?_, ?_, ?_⟩
  · simpa [MAX_BURST] using rapidAcquires_tokens t0 N hN
  · have hrefill : refill_tokens t0 ⟨0, t0⟩ = ⟨0, t0⟩ :=
      refill_tokens_same_time ⟨0, t0⟩
    simp [ensure_token_step, hrefill]
  · intro s now h1 h2 h3
    have hq : 0 ≤ (now - s.last_refill) * (MAX_REQUESTS_PER_MINUTE / 60) := by
      apply mul_nonneg (sub_nonneg.mpr h1)
      norm_num [MAX_REQUESTS_PER_MINUTE]
    rw [refill_tokens]
    simp only [pyInt_eq_floor _ hq]
    by_cases hpos : ⌊(now - s.last_refill) * (MAX_REQUESTS_PER_MINUTE / 60)⌋ > 0
    · simp [hpos]
    · have hzero : ⌊(now - s.last_refill) * (MAX_REQUESTS_PER_MINUTE / 60)⌋ = 0 :=
        le_antisymm (not_lt.mp hpos) (Int.floor_nonneg.mpr hq)
      rw [hzero]
      simp only [gt_iff_lt, lt_self_iff_false, if_false, add_zero]
      omega

/-- Witness for C6: from an empty queue of elapsed time at instant 0, all 90
rapid acquires succeed, and the 91st suspends for 60/14 seconds. -/
theorem token_bucket_spec_witness :
    rapidAcquires 0 (initialRateLimitState 0) 90 = some ⟨MAX_BURST - ((90 : Nat) : Int), 0⟩ ∧
    ensure_token_step 0 ⟨0, 0⟩ =
      AcquireStep.wait (60 / MAX_REQUESTS_PER_MINUTE) ⟨0, 0⟩ :=
  ⟨(token_bucket_spec 0 90 (by decide)).2.1, (token_bucket_spec 0 90 (by decide)).2.2.1⟩

/-! ## api_service.py: fetch client (lines 99-197) -/

/-- The dictionary `{"score": ..., "rank": ...}` built by
`_fetch_collection_log_internal`. The fields are `Option`-valued because a
Python dict value may dynamically be `None`; claim C10 is about whether that
ever happens. -/
structure ScoreResult where
  score : Option Int
  rank : Option Int
deriving DecidableEq

/-- One entry of the `activities` array of the external source's JSON body;
per the external interface, `id`, `score` and `rank` are integers. -/
structure Activity where
  id : Int
  score : Int
  rank : Int
deriving DecidableEq

/-- The `Retry-After` header of a 429 response: absent, present but not an
integer (Python `int(...)` raises `ValueError`), or an integer number of
seconds. -/
inductive RetryAfter where
  | absent
  | unparseable
  | seconds (n : Int)
deriving DecidableEq

/-- The possible outcomes of the HTTP request made by
`_fetch_collection_log_internal`, as seen by the surrounding code. -/
inductive ApiResponse where
  /-- status 200 with a parseable JSON body holding these activities -/
  | ok (activities : List Activity)
  /-- status 200 but `response.json()` raises (malformed body) -/
  | okUnparseable
  /-- status 429 with the given `Retry-After` header state -/
  | rateLimited (retryAfter : RetryAfter)
  /-- any other status code (the `>= 500` and the remaining branches both
  fall through to `return None`) -/
  | otherStatus (status : Nat)
  /-- `aiohttp.ClientError` or any other exception during the request -/
  | networkError
deriving DecidableEq

/-- What one call of `_fetch_collection_log_internal` produces: its return
value, how it updates the shared token count, and how long it sleeps
internally (the 429 cooldown of line 149). -/
structure InternalOutcome where
  result : Option ScoreResult
  tokensAfter : Int → Int
  sleep : Option Int

/-- Parsing of the `Retry-After` header (lines 137-141 of api_service.py):
default "60" when the header is absent, 60 when `int()` raises. -/
def parseRetryAfter : RetryAfter → Int
  | RetryAfter.absent => 60
  | RetryAfter.unparseable => 60
  | RetryAfter.seconds n => n

/-- Embedding of `_fetch_collection_log_internal` (lines 99-170 of
api_service.py). On 200, the first activity with `id == 18` yields
`{"score": score, "rank": rank}`; no such activity yields the sentinel
`{"score": -1, "rank": -1}`; a parse error falls through to `return None`.
On 429, the token pool is set to 0, the call sleeps `retry_seconds + 1`
seconds, and returns `None` to indicate retry needed (line 151). Every
other branch returns `None` with no side effect. -/
def fetch_collection_log_internal (resp : ApiResponse) : InternalOutcome :=
  match resp with
  | ApiResponse.ok activities =>
    match activities.find? (fun a => a.id == 18) with
    | some a => ⟨some ⟨some a.score, some a.rank⟩, id, none⟩
    | none => ⟨some ⟨some (-1), some (-1)⟩, id, none⟩
  | ApiResponse.okUnparseable => ⟨none, id, none⟩
  | ApiResponse.rateLimited ra =>
    ⟨none, fun _ => 0, some (parseRetryAfter ra + 1)⟩
  | ApiResponse.otherStatus _ => ⟨none, id, none⟩
  | ApiResponse.networkError => ⟨none, id, none⟩

/-- What one call of `fetch_collection_log` produces: its return value, the
number of underlying (enqueued) requests it made, and the list of backoff
sleeps (in seconds) it performed between attempts. -/
structure RetryTrace where
  result : Option ScoreResult
  calls : Nat
  sleeps : List Nat
deriving DecidableEq

/-- Embedding of the retry loop of `fetch_collection_log` (lines 176-197 of
api_service.py), with `u i` the result of the underlying (rate-limited)
request made on attempt `i` and `remaining` the retries still allowed. A
non-`None` result is returned immediately; otherwise, if retries remain,
the loop sleeps `2 ** attempt` seconds and tries again. -/
def fetchLoop (u : Nat → Option ScoreResult) (attempt : Nat) :
    Nat → RetryTrace
  | 0 =>
    match u attempt with
    | some r => ⟨some r, 1, []⟩
    | none => ⟨none, 1, []⟩
  | n + 1 =>
    match u attempt with
    | some r => ⟨some r, 1, []⟩
    | none =>
      let t := fetchLoop u (attempt + 1) n
      ⟨t.result, t.calls + 1, 2 ^ attempt :: t.sleeps⟩

/-- Embedding of `fetch_collection_log` (lines 173-197 of api_service.py):
the retry loop started at attempt 0, `max_retries` defaulting to 2. -/
def fetch_collection_log (u : Nat → Option ScoreResult)
    (max_retries : Nat := 2) : RetryTrace :=
  fetchLoop u 0 max_retries

theorem fetchLoop_calls_pos (u : Nat → Option ScoreResult) :
    ∀ m a, 1 ≤ (fetchLoop u a m).calls := by
  intro m
  induction m with
  | zero => intro a; cases h : u a <;> simp [fetchLoop, h]
  | succ n ih => intro a; cases h : u a <;> simp [fetchLoop, h]

theorem fetchLoop_calls_le (u : Nat → Option ScoreResult) :
    ∀ m a, (fetchLoop u a m).calls ≤ m + 1 := by
  intro m
  induction m with
  | zero => intro a; cases h : u a <;> simp [fetchLoop, h]
  | succ n ih =>
    intro a
    cases h : u a with
    | some r => simp [fetchLoop, h]
    | none =>
      simp only [fetchLoop, h]
      have := ih (a + 1)
      omega

theorem fetchLoop_success (u : Nat → Option ScoreResult) :
    ∀ (k m a : Nat) (r : ScoreResult), k ≤ m →
      (∀ i, i < k → u (a + i) = none) → u (a + k) = some r →
      fetchLoop u a m = ⟨some r, k + 1, (List.range k).map (fun j => 2 ^ (a + j))⟩ := by
  intro k
  induction k with
  | zero =>
    intro m a r _ _ hk
    rw [Nat.add_zero] at hk
    cases m <;> simp [fetchLoop, hk]
  | succ n ih =>
    intro m a r hm hnone hk
    have ha : u a = none := by simpa using hnone 0 (Nat.succ_pos n)
    obtain ⟨m', rfl⟩ : ∃ m', m = m' + 1 :=
      ⟨m - 1, by omega⟩
    have hrec := ih m' (a + 1) r (by omega)
      (fun i hi => by
        have := hnone (i + 1) (by omega)
        simpa [Nat.add_assoc, Nat.add_comm 1 i] using this)
      (by simpa [Nat.add_assoc, Nat.add_comm 1 n] using hk)
    simp only [fetchLoop, ha, hrec]
    refine congrArg _ ?_
    rw [List.range_succ_eq_map]
    simp only [List.map_cons, List.map_map, Nat.add_zero]
    refine congrArg (fun l => 2 ^ a :: l) ?_
    apply List.map_congr_left
    intro i _
    simp [Function.comp, Nat.add_assoc, Nat.add_comm 1 i]

theorem fetchLoop_failure (u : Nat → Option ScoreResult) :
    ∀ (m a : Nat), (∀ i, i ≤ m → u (a + i) = none) →
      fetchLoop u a m = ⟨none, m + 1, (List.range m).map (fun j => 2 ^ (a + j))⟩ := by
  intro m
  induction m with
  | zero =>
    intro a h
    have := h 0 (Nat.le_refl 0)
    simp only [Nat.add_zero] at this
    simp [fetchLoop, this]
  | succ n ih =>
    intro a h
    have ha : u a = none := by simpa using h 0 (Nat.zero_le _)
    have hrec := ih (a + 1) (fun i hi => by
      have := h (i + 1) (by omega)
      simpa [Nat.add_assoc, Nat.add_comm 1 i] using this)
    simp only [fetchLoop, ha, hrec]
    refine congrArg _ ?_
    rw [List.range_succ_eq_map]
    simp only [List.map_cons, List.map_map, Nat.add_zero]
    refine congrArg (fun l => 2 ^ a :: l) ?_
    apply List.map_congr_left
    intro i _
    simp [Function.comp, Nat.add_assoc, Nat.add_comm 1 i]

/-- Claim C5: for every underlying-call behaviour and every `max_retries`
value, `fetch_collection_log` performs at most `max_retries + 1` underlying
calls; a non-`None` result on the first successful attempt `k` is returned
immediately after exactly `k + 1` calls, having slept `2^(j-1)` seconds
before retry attempt `j` for `j = 1, ..., k`; and when every attempt fails
the result is the failure value `none` after `max_retries + 1` calls. -/
theorem retry_spec (u : Nat → Option ScoreResult) (m : Nat) :
    (fetch_collection_log u m).calls ≤ m + 1 ∧
    (∀ (k : Nat) (r : ScoreResult), k ≤ m → (∀ i, i < k → u i = none) →
      u k = some r →
      fetch_collection_log u m = ⟨some r, k + 1, (List.range k).map (fun j => 2 ^ j)⟩) ∧
    ((∀ i, i ≤ m → u i = none) →
      fetch_collection_log u m = ⟨none, m + 1, (List.range m).map (fun j => 2 ^ j)⟩) := by
  refine ⟨fetchLoop_calls_le u m 0, ?_, ?_⟩
  · intro k r hk hnone hsucc
    have := fetchLoop_success u k m 0 r hk
      (fun i hi => by simpa using hnone i hi) (by simpa using hsucc)
    simpa using this
  · intro h
    have := fetchLoop_failure u m 0 (fun i hi => by simpa using h i hi)
    simpa using this

/-- Witness for C5: an underlying call that fails on attempts 0 and 1 and
succeeds on attempt 2 yields the success after exactly 3 calls with backoff
sleeps of 1 and 2 seconds. -/
theorem retry_spec_witness :
    fetch_collection_log
        (fun i => if i = 2 then some ⟨some 7, some 3⟩ else none) 2 =
      ⟨some ⟨some 7, some 3⟩, 3, [1, 2]⟩ := by
  have := (retry_spec (fun i => if i = 2 then some ⟨some 7, some 3⟩ else none) 2).2.1
    2 ⟨some 7, some 3⟩ (by decide) (by decide) (by decide)
  simpa [List.range_succ] using this

/-- Claim C7: on a 429 response the fetch reads the advisory wait from the
`Retry-After` header (60 seconds when absent or unparseable), sets the token
bucket to zero, sleeps `advisory + 1` seconds, and returns `None` — the
retry-needed signal, which makes the retry wrapper issue another underlying
call when retries remain, rather than a score result. -/
theorem rate_limit_429_spec (ra : RetryAfter) (tokens : Int) :
    (fetch_collection_log_internal (ApiResponse.rateLimited ra)).result = none ∧
    (fetch_collection_log_internal (ApiResponse.rateLimited ra)).tokensAfter tokens = 0 ∧
    (fetch_collection_log_internal (ApiResponse.rateLimited ra)).sleep =
      some (parseRetryAfter ra + 1) ∧
    parseRetryAfter RetryAfter.absent = 60 ∧
    parseRetryAfter RetryAfter.unparseable = 60 ∧
    (∀ n, parseRetryAfter (RetryAfter.seconds n) = n) ∧
    (∀ (u : Nat → Option ScoreResult) (m : Nat), u 0 = none → 1 ≤ m →
      2 ≤ (fetchLoop u 0 m).calls) := by
  refine ⟨rfl, rfl, rfl, rfl, rfl, fun n => rfl, ?_⟩
  intro u m h0 hm
  obtain ⟨m', rfl⟩ : ∃ m', m = m' + 1 := ⟨m - 1, by omega⟩
  have hstep : (fetchLoop u 0 (m' + 1)).calls = (fetchLoop u 1 m').calls + 1 := by
    simp [fetchLoop, h0]
  have := fetchLoop_calls_pos u m' 1
  omega

/-- Witness for C7: a 429 with an absent header zeroes a bucket of 5 tokens,
sleeps 61 seconds, and its `None` return makes the wrapper issue a second
underlying call. -/
theorem rate_limit_429_spec_witness :
    (fetch_collection_log_internal (ApiResponse.rateLimited RetryAfter.absent)).tokensAfter 5 = 0 ∧
    (fetch_collection_log_internal (ApiResponse.rateLimited RetryAfter.absent)).sleep = some 61 ∧
    2 ≤ (fetchLoop (fun _ => none) 0 1).calls :=
  ⟨(rate_limit_429_spec RetryAfter.absent 5).2.1,
   (rate_limit_429_spec RetryAfter.absent 5).2.2.1,
   (rate_limit_429_spec RetryAfter.absent 5).2.2.2.2.2.2 (fun _ => none) 1 rfl (by decide)⟩

/-- An underlying-call behaviour whose first attempt always succeeds, used to
exhibit that `fetch_collection_log` performs no caching. -/
def constSuccess : Nat → Option ScoreResult := fun _ => some ⟨some 100, some 5⟩

/-- Counterexample to claim C2: `fetch_collection_log` has no result cache,
so two fetches for the same key — at any two instants, in particular within
3600 seconds of each other — each issue one underlying request, two in
total, not the claimed exactly one. -/
theorem no_cache_counterexample :
    (fetch_collection_log constSuccess).calls +
        (fetch_collection_log constSuccess).calls = 2 ∧
    (2 : Nat) ≠ 1 := by
  exact ⟨rfl, by decide⟩

/-- Claim C2 as amended: the code has no result cache. Every call of
`fetch_collection_log` issues at least one underlying request regardless of
any earlier call for the same key, and two calls whose first attempts
succeed issue exactly two underlying requests in total; no result is ever
stored for reuse (there is no cache state anywhere in the module — the only
module state is the token bucket). -/
theorem no_cache_amended (u1 u2 : Nat → Option ScoreResult)
    (m m1 m2 : Nat) (r1 r2 : ScoreResult)
    (h1 : u1 0 = some r1) (h2 : u2 0 = some r2) :
    1 ≤ (fetch_collection_log u1 m).calls ∧
    (fetch_collection_log u1 m1).calls + (fetch_collection_log u2 m2).calls = 2 := by
  constructor
  · exact fetchLoop_calls_pos u1 m 0
  · have e1 := fetchLoop_success u1 0 m1 0 r1 (Nat.zero_le _)
      (fun i hi => absurd hi (Nat.not_lt_zero i)) (by simpa using h1)
    have e2 := fetchLoop_success u2 0 m2 0 r2 (Nat.zero_le _)
      (fun i hi => absurd hi (Nat.not_lt_zero i)) (by simpa using h2)
    rw [fetch_collection_log, fetch_collection_log, e1, e2]
    rfl

/-- Witness for the amended C2: two always-succeeding fetches issue exactly
two underlying requests in total. -/
theorem no_cache_amended_witness :
    1 ≤ (fetch_collection_log constSuccess 2).calls ∧
    (fetch_collection_log constSuccess 2).calls +
        (fetch_collection_log constSuccess 2).calls = 2 :=
  no_cache_amended constSuccess constSuccess 2 2 2 ⟨some 100, some 5⟩ ⟨some 100, some 5⟩ rfl rfl

/-! ## leaderboard_service.py: per-participant sync step (lines 110-174) -/

/-- One row of the `leaderboard` table for the guild being synced:
`(username, collection_log_total, hiscore_rank)`. The rank column is
`Option`-valued because the code writes `result["rank"]` into it verbatim,
which is dynamically a possibly-`None` Python value. -/
structure LBRow where
  username : String
  collection_log_total : Int
  hiscore_rank : Option Int
deriving DecidableEq

/-- The `SELECT collection_log_total FROM leaderboard WHERE guild_id = ? AND
username = ?` query (lines 126-130 of leaderboard_service.py) against the
current table contents. -/
def lookupTotal (db : List LBRow) (u : String) : Option Int :=
  (db.find? (fun r => r.username == u)).map (fun r => r.collection_log_total)

/-- The `INSERT ... ON CONFLICT(guild_id, username) DO UPDATE` statement
(lines 153-157 of leaderboard_service.py): replace the row keyed by the
username if present, else append a new row. -/
def upsertRow (db : List LBRow) (u : String) (score : Int)
    (rank : Option Int) : List LBRow :=
  match db with
  | [] => [⟨u, score, rank⟩]
  | r :: rest =>
    if r.username == u then ⟨u, score, rank⟩ :: rest
    else r :: upsertRow rest u score rank

/-- An element appended to the in-memory `leaderboard_data` list during a
sync pass: line 158 appends a `(username, score, rank)` triple, while the
carry-forward branch at lines 171-173 appends a `(username, score)` pair. -/
inductive LBEntry where
  | full (username : String) (score : Int) (rank : Option Int)
  | scoreOnly (username : String) (score : Int)
deriving DecidableEq

/-- Everything one iteration of the per-username loop of
`update_leaderboard` contributes: the table after the iteration, the entry
appended to `leaderboard_data` (if any), and the increments of the
`processed_users`, `failed_users` and `unchanged_users` counters. -/
structure StepResult where
  db : List LBRow
  entry : Option LBEntry
  processedDelta : Nat
  failedDelta : Nat
  unchangedDelta : Nat
deriving DecidableEq

/-- Embedding of the body of the per-username loop of `update_leaderboard`
(lines 110-174 of leaderboard_service.py). `prev` is the
`previous_leaderboard` map loaded before the loop (username to previous
total); `db` is the live `leaderboard` table the cursor sees; `result` is
what `fetch_collection_log` returned for this username.

Note the control flow of the source: the whole body is guarded by
`if result is not None:`, and the `else` at line 160 belongs to the inner
`if score is not None:`. When `result` is `None` — a fetch failure after
all retries — no branch runs at all: nothing is appended, nothing is
upserted, and no counter moves. -/
def processUser (db : List LBRow) (prev : String → Option Int) (u : String)
    (result : Option ScoreResult) : StepResult :=
  match result with
  | none => ⟨db, none, 0, 0, 0⟩
  | some r =>
    match r.score with
    | some score0 =>
      let score :=
        if score0 = -1 then
          match lookupTotal db u with
          | some p => if 0 < p ∧ p < 500 then p else -1
          | none => -1
        else score0
      let unchangedDelta := if prev u = some score then 1 else 0
      ⟨upsertRow db u score r.rank, some (LBEntry.full u score r.rank),
        1, 0, unchangedDelta⟩
    | none =>
      match prev u with
      | some p => ⟨db, some (LBEntry.scoreOnly u p), 1, 1, 0⟩
      | none => ⟨db, none, 0, 1, 0⟩

/-- Rendering of a score in the embed (line 232 and line 381 of
leaderboard_service.py): the literal marker `<500` for the sentinel `-1`,
the decimal numeral otherwise. -/
def displayScore (score : Int) : String :=
  if score = -1 then "<500" else toString score

theorem lookupTotal_upsertRow_self (db : List LBRow) (u : String)
    (score : Int) (rank : Option Int) :
    lookupTotal (upsertRow db u score rank) u = some score := by
  induction db with
  | nil => simp [upsertRow, lookupTotal]
  | cons r rest ih =>
    by_cases h : r.username == u
    · simp [upsertRow, lookupTotal, h]
    · simp only [upsertRow, h, if_false]
      simpa [lookupTotal, List.find?, h] using ih

/-- Claim C3 is wrong about the code (and the code contradicts its own
logging intent): when `fetch_collection_log` returns `None` — a fetch
failure after all retries — the loop body does nothing at all, because the
carry-forward branch sits under `if result is not None:` and can only fire
for a non-`None` result with a `None` score. In particular a participant
with a previous record is not carried forward into the pass's snapshot: at
the failing input below, the snapshot entry is `none` and even
`failed_users` stays unchanged. -/
theorem fetch_failure_skips_user :
    (∀ (db : List LBRow) (prev : String → Option Int) (u : String),
      processUser db prev u none = ⟨db, none, 0, 0, 0⟩) ∧
    processUser [⟨"alice", 200, some 10⟩]
        (fun u => if u = "alice" then some 200 else none) "alice" none =
      ⟨[⟨"alice", 200, some 10⟩], none, 0, 0, 0⟩ :=
  ⟨fun _ _ _ => rfl, rfl⟩

/-- Counterexample to claim C4: a previously stored score of `0` lies in the
claimed inclusive range `[0, 499]`, yet the code's guard
`previous_result["collection_log_total"] > 0` rejects it, so the sentinel
`-1` is upserted rather than the previous score `0`. -/
theorem sentinel_range_counterexample :
    (processUser [⟨"bob", 0, some 3⟩]
        (fun u => if u = "bob" then some 0 else none) "bob"
        (some ⟨some (-1), some 7⟩)).db = [⟨"bob", -1, some 7⟩] ∧
    ((0 : Int) ≤ 0 ∧ (0 : Int) ≤ 499) ∧ (-1 : Int) ≠ 0 := by
  refine ⟨by decide, by decide, by decide⟩

/-- Claim C4 as amended: on a fetched sentinel score `-1`, the previously
stored score replaces the sentinel if and only if it lies in the range
`[1, 499]` (strictly positive and below 500); for a previous score outside
that range — including `0` — or when no previous record exists, the sentinel
`-1` is kept and upserted. -/
theorem sentinel_override_amended (db : List LBRow)
    (prev : String → Option Int) (u : String) (rank : Option Int) :
    (∀ p, lookupTotal db u = some p →
      (processUser db prev u (some ⟨some (-1), rank⟩)).db =
        upsertRow db u (if 0 < p ∧ p < 500 then p else -1) rank ∧
      ((0 < p ∧ p < 500) ↔ (1 ≤ p ∧ p ≤ 499))) ∧
    (lookupTotal db u = none →
      (processUser db prev u (some ⟨some (-1), rank⟩)).db =
        upsertRow db u (-1) rank) := by
  constructor
  · intro p hp
    constructor
    · simp [processUser, hp]
    · omega
  · intro hp
    simp [processUser, hp]

/-- Witness for the amended C4: a previous score of 250 (inside `[1, 499]`)
replaces the sentinel. -/
theorem sentinel_override_amended_witness :
    (processUser [⟨"bob", 250, some 3⟩] (fun _ => none) "bob"
        (some ⟨some (-1), some 7⟩)).db = [⟨"bob", 250, some 7⟩] := by
  have h := (sentinel_override_amended [⟨"bob", 250, some 3⟩]
    (fun _ => none) "bob" (some 7)).1 250 rfl
  rw [h.1]
  decide

/-- Claim C9: a participant whose fetch succeeds with the sentinel score
`-1` and who has no prior stored score is retained in the snapshot with the
sentinel (upserted as `-1`, not dropped), and the rendered entry shows the
literal marker `<500`. -/
theorem sentinel_retained_spec (db : List LBRow)
    (prev : String → Option Int) (u : String) (rank : Option Int)
    (hdb : lookupTotal db u = none) (hprev : prev u = none) :
    processUser db prev u (some ⟨some (-1), rank⟩) =
      ⟨upsertRow db u (-1) rank, some (LBEntry.full u (-1) rank), 1, 0, 0⟩ ∧
    lookupTotal (upsertRow db u (-1) rank) u = some (-1) ∧
    displayScore (-1) = "<500" := by
  refine ⟨?_, lookupTotal_upsertRow_self db u (-1) rank, rfl⟩
  simp [processUser, hdb, hprev]

/-- Witness for C9: a fresh participant fetched at the sentinel is stored
and shown as `<500`. -/
theorem sentinel_retained_spec_witness :
    processUser [] (fun _ => none) "carol" (some ⟨some (-1), some (-1)⟩) =
      ⟨[⟨"carol", -1, some (-1)⟩],
        some (LBEntry.full "carol" (-1) (some (-1))), 1, 0, 0⟩ ∧
    displayScore (-1) = "<500" := by
  have h := sentinel_retained_spec [] (fun _ => none) "carol" (some (-1)) rfl rfl
  exact ⟨h.1.trans (by decide), h.2.2⟩

theorem fetchLoop_result_some (u : Nat → Option ScoreResult) :
    ∀ m a r, (fetchLoop u a m).result = some r → ∃ i, u i = some r := by
  intro m
  induction m with
  | zero =>
    intro a r h
    cases hu : u a with
    | some x =>
      simp [fetchLoop, hu] at h
      exact ⟨a, by rw [hu, h]⟩
    | none => simp [fetchLoop, hu] at h
  | succ n ih =>
    intro a r h
    cases hu : u a with
    | some x =>
      simp [fetchLoop, hu] at h
      exact ⟨a, by rw [hu, h]⟩
    | none =>
      simp [fetchLoop, hu] at h
      exact ih (a + 1) r h

theorem internal_result_fields (resp : ApiResponse) (r : ScoreResult)
    (h : (fetch_collection_log_internal resp).result = some r) :
    (∃ s, r.score = some s) ∧ ∃ k, r.rank = some k := by
  cases resp with
  | ok acts =>
    cases hf : acts.find? (fun a => a.id == 18) with
    | some a =>
      simp [fetch_collection_log_internal, hf] at h
      exact ⟨⟨a.score, by rw [← h]⟩, a.rank, by rw [← h]⟩
    | none =>
      simp [fetch_collection_log_internal, hf] at h
      exact ⟨⟨-1, by rw [← h]⟩, -1, by rw [← h]⟩
  | okUnparseable => simp [fetch_collection_log_internal] at h
  | rateLimited ra => simp [fetch_collection_log_internal] at h
  | otherStatus st => simp [fetch_collection_log_internal] at h
  | networkError => simp [fetch_collection_log_internal] at h

/-- Claim C10: every non-`None` value returned by `fetch_collection_log`
(driven by any sequence of HTTP responses) has non-`None` integer `score`
and `rank` fields; consequently the per-participant handling of such a
result always takes the upsert path — it appends a full snapshot entry,
upserts the row, and never reaches the `score is None` failure branch. -/
theorem fetch_result_total_spec (resps : Nat → ApiResponse) (m : Nat)
    (r : ScoreResult)
    (h : (fetchLoop (fun i => (fetch_collection_log_internal (resps i)).result)
        0 m).result = some r) :
    (∃ s, r.score = some s) ∧ (∃ k, r.rank = some k) ∧
    (∀ (db : List LBRow) (prev : String → Option Int) (u : String),
      ∃ s, (processUser db prev u (some r)).entry =
          some (LBEntry.full u s r.rank) ∧
        (processUser db prev u (some r)).db = upsertRow db u s r.rank ∧
        (processUser db prev u (some r)).failedDelta = 0) := by
  obtain ⟨i, hi⟩ := fetchLoop_result_some _ m 0 r h
  obtain ⟨⟨s0, hs⟩, k0, hk⟩ := internal_result_fields (resps i) r hi
  refine ⟨⟨s0, hs⟩, ⟨k0, hk⟩, ?_⟩
  intro db prev u
  cases r with
  | mk rscore rrank =>
    simp only at hs
    subst hs
    exact ⟨_, rfl, rfl, rfl⟩

/-- Witness for C10: a fetch over an always-healthy source yields a total
record, and processing it never takes the failure branch. -/
theorem fetch_result_total_spec_witness :
    (processUser [] (fun _ => none) "dave"
        (some ⟨some 100, some 5⟩)).failedDelta = 0 := by
  have h := fetch_result_total_spec
    (fun _ => ApiResponse.ok [⟨18, 100, 5⟩]) 2 ⟨some 100, some 5⟩ rfl
  obtain ⟨-, -, h3⟩ := h
  obtain ⟨s, -, -, hf⟩ := h3 [] (fun _ => none) "dave"
  exact hf

/-! ## leaderboard_service.py: ranking (lines 189-204 and 357-361) -/

/-- The tie-breaking component of the sort key of lines 196-201 (and
identically lines 358-360) of leaderboard_service.py:
`x[2] if x[2] > 0 else float("inf")` — a rank at most 0 sorts as plus
infinity. -/
def effectiveRank (x : String × Int × Int) : WithTop Int :=
  if 0 < x.2.2 then (x.2.2 : WithTop Int) else ⊤

/-- The full sort key `(-x[1], x[2] if x[2] > 0 else float("inf"))` applied
to a `(username, score, rank)` record. -/
def sortKey (x : String × Int × Int) : Int × WithTop Int :=
  (-x.2.1, effectiveRank x)

/-- Python's lexicographic comparison of the sort keys: this is the order by
which `list.sort(key=...)` arranges the records. -/
def recordLe (a b : String × Int × Int) : Prop :=
  (sortKey a).1 < (sortKey b).1 ∨
    ((sortKey a).1 = (sortKey b).1 ∧ (sortKey a).2 ≤ (sortKey b).2)

instance : DecidableRel recordLe := fun a b =>
  inferInstanceAs (Decidable ((sortKey a).1 < (sortKey b).1 ∨
    ((sortKey a).1 = (sortKey b).1 ∧ (sortKey a).2 ≤ (sortKey b).2)))

instance : IsTotal (String × Int × Int) recordLe := ⟨by
  intro a b
  rcases lt_trichotomy (sortKey a).1 (sortKey b).1 with h | h | h
  · exact Or.inl (Or.inl h)
  · rcases le_total (sortKey a).2 (sortKey b).2 with h2 | h2
    · exact Or.inl (Or.inr ⟨h, h2⟩)
    · exact Or.inr (Or.inr ⟨h.symm, h2⟩)
  · exact Or.inr (Or.inl h)⟩

instance : IsTrans (String × Int × Int) recordLe := ⟨by
  intro a b c hab hbc
  rcases hab with h1 | ⟨e1, l1⟩ <;> rcases hbc with h2 | ⟨e2, l2⟩
  · exact Or.inl (h1.trans h2)
  · exact Or.inl (lt_of_lt_of_le h1 (le_of_eq e2))
  · exact Or.inl (lt_of_le_of_lt (le_of_eq e1) h2)
  · exact Or.inr ⟨e1.trans e2, l1.trans l2⟩⟩

/-- Python's `list.sort` is a stable sort by key; `List.insertionSort` is
the canonical stable sort by the same order. The ranked ordering of a sync
pass and of the display refresh: sort, then truncate with
`leaderboard_data[:50]` (line 204 and line 361). -/
def rankRecords (data : List (String × Int × Int)) :
    List (String × Int × Int) :=
  (List.insertionSort recordLe data).take 50

/-- Claim C1: the ranked ordering is a permutation of the records truncated
to the first 50, arranged by score descending with ties broken by
external rank ascending where a rank at most 0 sorts as plus infinity; on
the records `[(A,100,5), (B,100,2), (C,150,-1)]` the order is `C, B, A`. -/
theorem ranked_ordering_spec (data : List (String × Int × Int)) :
    (List.insertionSort recordLe data).Perm data ∧
    rankRecords data = (List.insertionSort recordLe data).take 50 ∧
    (rankRecords data).length = min 50 data.length ∧
    List.Pairwise
      (fun a b => b.2.1 < a.2.1 ∨
        (a.2.1 = b.2.1 ∧ effectiveRank a ≤ effectiveRank b))
      (rankRecords data) ∧
    rankRecords [("A", 100, 5), ("B", 100, 2), ("C", 150, -1)] =
      [("C", 150, -1), ("B", 100, 2), ("A", 100, 5)] := by
  refine ⟨List.perm_insertionSort recordLe data, rfl, ?_, ?_, by decide⟩
  · rw [rankRecords, List.length_take,
      (List.perm_insertionSort recordLe data).length_eq]
  · have hs : List.Pairwise recordLe (List.insertionSort recordLe data) :=
      List.sorted_insertionSort recordLe data
    have ht := List.Pairwise.sublist (List.take_sublist 50 _) hs
    refine ht.imp ?_
    intro a b hab
    rcases hab with h | ⟨e, l⟩
    · exact Or.inl (neg_lt_neg_iff.mp h)
    · exact Or.inr ⟨neg_inj.mp e, l⟩

/-! ## leaderboard_service.py: publishing (lines 34-45 and 296-318) -/

/-- The message destination (the configured channel) as the publisher sees
it: the set of message ids that currently exist there, and a source of
fresh ids for newly created messages. -/
structure PublishDest where
  existing : List Nat
  nextId : Nat
deriving DecidableEq

/-- The message operation a publish performs. -/
inductive PublishOp where
  | edited (id : Nat)
  | created (id : Nat)
deriving DecidableEq

/-- Result of one publish: the stored message id afterwards (the
`DisplayState` artifact id), the destination afterwards, and the operation
performed. -/
structure PublishOutcome where
  stored : Option Nat
  dest : PublishDest
  op : PublishOp
deriving DecidableEq

/-- Embedding of the send-or-edit logic of `update_leaderboard` (lines
296-318 of leaderboard_service.py) together with `send_leaderboard_embed`
(lines 34-45): with a stored message id whose message still exists, fetch
and edit it in place; on `discord.NotFound` — or with no stored id — send a
new message and persist its id via `set_leaderboard_message_id`. -/
def publishLeaderboard (stored : Option Nat) (dest : PublishDest) :
    PublishOutcome :=
  match stored with
  | some mid =>
    if mid ∈ dest.existing then ⟨some mid, dest, PublishOp.edited mid⟩
    else
      ⟨some dest.nextId, ⟨dest.nextId :: dest.existing, dest.nextId + 1⟩,
        PublishOp.created dest.nextId⟩
  | none =>
    ⟨some dest.nextId, ⟨dest.nextId :: dest.existing, dest.nextId + 1⟩,
      PublishOp.created dest.nextId⟩

/-- Claim C8: publishing is idempotent with respect to the artifact. With a
stored id whose message still exists, publish edits that message in place,
creates nothing, and leaves both the destination and the stored id
unchanged; a new message is created and its id persisted exactly when no id
is stored or the stored message no longer exists; and a second publish right
after any publish is an edit of the same message, never a second creation. -/
theorem publish_idempotent_spec (stored : Option Nat) (dest : PublishDest) :
    (∀ mid, stored = some mid → mid ∈ dest.existing →
      publishLeaderboard stored dest = ⟨some mid, dest, PublishOp.edited mid⟩) ∧
    ((stored = none ∨ ∃ mid, stored = some mid ∧ mid ∉ dest.existing) →
      publishLeaderboard stored dest =
        ⟨some dest.nextId, ⟨dest.nextId :: dest.existing, dest.nextId + 1⟩,
          PublishOp.created dest.nextId⟩) ∧
    (∃ mid, (publishLeaderboard stored dest).stored = some mid ∧
      publishLeaderboard (publishLeaderboard stored dest).stored
          (publishLeaderboard stored dest).dest =
        ⟨some mid, (publishLeaderboard stored dest).dest,
          PublishOp.edited mid⟩) := by
  refine ⟨?_, ?_, ?_⟩
  · intro mid hmid hmem
    subst hmid
    simp [publishLeaderboard, hmem]
  · rintro (rfl | ⟨mid, rfl, hmem⟩)
    · rfl
    · simp [publishLeaderboard, hmem]
  · cases stored with
    | none =>
      exact ⟨dest.nextId, rfl, by simp [publishLeaderboard]⟩
    | some mid =>
      by_cases hmem : mid ∈ dest.existing
      · exact ⟨mid, by simp [publishLeaderboard, hmem],
          by simp [publishLeaderboard, hmem]⟩
      · exact ⟨dest.nextId, by simp [publishLeaderboard, hmem],
          by simp [publishLeaderboard, hmem]⟩

/-- Witness for C8: with message 41 still present, publish edits it in
place and changes nothing; with nothing stored, publish creates message 7
and persists it. -/
theorem publish_idempotent_spec_witness :
    publishLeaderboard (some 41) ⟨[41], 7⟩ =
      ⟨some 41, ⟨[41], 7⟩, PublishOp.edited 41⟩ ∧
    publishLeaderboard none ⟨[], 7⟩ =
      ⟨some 7, ⟨[7], 8⟩, PublishOp.created 7⟩ :=
  ⟨(publish_idempotent_spec (some 41) ⟨[41], 7⟩).1 41 rfl (by decide),
   (publish_idempotent_spec none ⟨[], 7⟩).2.1 (Or.inl rfl)⟩

end ClogBot
